import Mathlib

/-!
Shallow embedding of the accrual-and-risk core of the red-bank repository:
the incentive index engine and user reward accountant
(contracts/incentives/src/helpers.rs) and the health-factor position
aggregator (contracts/red-bank/src/health.rs).

Machine-arithmetic conventions:
* `Uint128` values are `Nat`; checked operations (`checked_mul`,
  `checked_sub`) return `Except` and test the 2^128 bound or underflow
  explicitly, mirroring cosmwasm-std.
* `Decimal` is an 18-decimal fixed-point number; it is represented by its
  atomics (numerator over 10^18) as a `Nat`.  `Decimal::from_ratio(a, b)`
  floors `a * 10^18 / b`; `Uint128 * Decimal` floors `u * atomics / 10^18`.
  Overflow of `Decimal` addition / `from_ratio` panics in Rust (it is not a
  `Result` error) and aborts the transaction; panics are outside the
  `Except` error channel and are not modelled (the claims under study do
  not depend on them).
-/

/-- One atomic unit of `Decimal`: values are numerators over `10^18`. -/
def DEC18 : Nat := 10 ^ 18

/-- Exclusive upper bound of `Uint128`. -/
def uint128Bound : Nat := 2 ^ 128

/-- `Decimal::from_ratio(a, b)` in atomics: floor of `a * 10^18 / b`. -/
def decimalFromRatio (a b : Nat) : Nat := a * DEC18 / b

/-- `Uint128 * Decimal` (cosmwasm `Mul<Decimal> for Uint128`): floor of
`u * atomics / 10^18`, yielding a `Uint128`. -/
def mulUintDec (u atomics : Nat) : Nat := u * atomics / DEC18

/-- The overflow operation tag carried by cosmwasm `OverflowError`. -/
inductive OverflowOp where
  | sub
  | mul
  deriving Repr, DecidableEq

/-- The subset of cosmwasm `StdError` reachable in the embedded code. -/
inductive StdErr where
  | overflow (op : OverflowOp) (operand1 operand2 : Nat)
  | notFound (what : String)
  | generic (msg : String)
  deriving Repr, DecidableEq

instance {ε α : Type} [DecidableEq ε] [DecidableEq α] : DecidableEq (Except ε α) :=
  fun a b =>
    match a, b with
    | .ok x, .ok y => decidable_of_iff (x = y) (by simp)
    | .error x, .error y => decidable_of_iff (x = y) (by simp)
    | .ok _, .error _ => isFalse (by simp)
    | .error _, .ok _ => isFalse (by simp)

/-- `Uint128::checked_sub`. -/
def checkedSub (a b : Nat) : Except StdErr Nat :=
  if a < b then .error (.overflow .sub a b) else .ok (a - b)

/-- `Uint128::checked_mul`. -/
def checkedMul (a b : Nat) : Except StdErr Nat :=
  if a * b < uint128Bound then .ok (a * b) else .error (.overflow .mul a b)

/-- `mars_red_bank_types::incentives::AssetIncentive`
(`emission_per_second : Uint128`, timestamps in seconds, `index : Decimal`
stored as atomics). -/
structure AssetIncentive where
  emission_per_second : Nat
  start_time : Nat
  duration : Nat
  index : Nat
  last_updated : Nat
  deriving Repr, DecidableEq

/-- `compute_asset_incentive_index` (helpers.rs): fails when
`time_start > time_end`, otherwise adds
`from_ratio(emission_per_second * seconds_elapsed, total_amount_scaled)`
to the previous index. -/
def compute_asset_incentive_index (previous_index emission_per_second
    total_amount_scaled time_start time_end : Nat) : Except StdErr Nat :=
  if time_start > time_end then
    .error (.overflow .sub time_start time_end)
  else
    match checkedMul emission_per_second (time_end - time_start) with
    | .error e => .error e
    | .ok emission_for_elapsed_seconds =>
        .ok (previous_index + decimalFromRatio emission_for_elapsed_seconds total_amount_scaled)

/-- The five-way guard of `update_asset_incentive_index`. -/
def advance_guard (ai : AssetIncentive) (total_amount_scaled current_block_time : Nat) : Prop :=
  current_block_time ≠ ai.last_updated ∧
  current_block_time > ai.start_time ∧
  ai.last_updated < ai.start_time + ai.duration ∧
  total_amount_scaled ≠ 0 ∧
  ai.emission_per_second ≠ 0

instance (ai : AssetIncentive) (t n : Nat) : Decidable (advance_guard ai t n) := by
  unfold advance_guard; infer_instance

/-- `update_asset_incentive_index` (helpers.rs): under the five-way guard,
recomputes the index over the clamped window
`[max(start_time, last_updated), min(now, start_time + duration)]`; sets
`last_updated` to the current block time on every successful path. -/
def update_asset_incentive_index (ai : AssetIncentive)
    (total_amount_scaled current_block_time : Nat) : Except StdErr AssetIncentive :=
  if advance_guard ai total_amount_scaled current_block_time then
    match compute_asset_incentive_index ai.index ai.emission_per_second total_amount_scaled
        (max ai.start_time ai.last_updated)
        (min current_block_time (ai.start_time + ai.duration)) with
    | .error e => .error e
    | .ok idx => .ok { ai with index := idx, last_updated := current_block_time }
  else
    .ok { ai with last_updated := current_block_time }

/-- `compute_user_accrued_rewards` (helpers.rs):
`(user_amount_scaled * asset_incentive_index).checked_sub(user_amount_scaled * user_asset_index)`. -/
def compute_user_accrued_rewards (user_amount_scaled user_asset_index
    asset_incentive_index : Nat) : Except StdErr Nat :=
  checkedSub (mulUintDec user_amount_scaled asset_incentive_index)
    (mulUintDec user_amount_scaled user_asset_index)

/-! ### Settlement state (contracts/incentives/src/helpers.rs)

`compute_new_user_unclaimed_rewards` and `update_user_rewards` act on the
contract storage for one fixed `(user, collateral_denom, incentive_denom)`
triple; the store is modelled as the three optional entries for that triple.
The red-bank querier (`UserCollateral` / `Market` smart queries, used only
when the caller passes no `Collaterals`) is modelled as the `Collaterals`
value it would answer with. -/

/-- `helpers.rs` `Collaterals`: user scaled balance and total scaled supply. -/
structure Collaterals where
  user_collateral : Nat
  total_collateral : Nat
  deriving Repr, DecidableEq

/-- `helpers.rs` `UserAssetIncentiveStatus`. -/
structure UserAssetIncentiveStatus where
  user_index_current : Nat
  asset_incentive_updated : AssetIncentive
  deriving Repr, DecidableEq

/-- Contract storage for one `(user, collateral_denom, incentive_denom)`
triple: the `USER_ASSET_INDICES`, `USER_UNCLAIMED_REWARDS` and
`ASSET_INCENTIVES` entries (`none` = key absent). -/
structure IncStore where
  user_asset_index : Option Nat
  user_unclaimed : Option Nat
  asset_incentive : Option AssetIncentive
  deriving Repr, DecidableEq

/-- `compute_new_user_unclaimed_rewards` (helpers.rs).  `queried` stands for
the red-bank querier's answer, used when `collaterals` is `none`; reads
`USER_ASSET_INDICES` from `store`; writes nothing. -/
def compute_new_user_unclaimed_rewards (store : IncStore) (block_time : Nat)
    (queried : Collaterals) (asset_incentive : AssetIncentive)
    (collaterals : Option Collaterals) :
    Except StdErr (Nat × Option UserAssetIncentiveStatus) :=
  let cs := collaterals.getD queried
  if cs.user_collateral = 0 then
    .ok (0, none)
  else
    match update_asset_incentive_index asset_incentive cs.total_collateral block_time with
    | .error e => .error e
    | .ok ai =>
        let user_asset_index := store.user_asset_index.getD 0
        match (if user_asset_index ≠ ai.index then
                compute_user_accrued_rewards cs.user_collateral user_asset_index ai.index
              else .ok 0) with
        | .error e => .error e
        | .ok unclaimed_rewards =>
            .ok (unclaimed_rewards, some ⟨user_asset_index, ai⟩)

/-- `update_user_rewards` (helpers.rs): settles the user and commits the new
unclaimed-rewards balance (zeroed when `clear_rewards`), the updated
`AssetIncentive`, and — only when it changed — the user's index.  Returns
the updated store together with `(previous_rewards, current_rewards,
new_asset_incentive)`. -/
def update_user_rewards (store : IncStore) (block_time : Nat)
    (queried : Collaterals) (asset_incentive : AssetIncentive)
    (collaterals : Option Collaterals) (clear_rewards : Bool) :
    Except StdErr (IncStore × Nat × Nat × AssetIncentive) :=
  let previous_rewards := store.user_unclaimed.getD 0
  match compute_new_user_unclaimed_rewards store block_time queried asset_incentive collaterals with
  | .error e => .error e
  | .ok (new_unclaimed_rewards, status) =>
      let current_rewards := previous_rewards + new_unclaimed_rewards
      let store1 := { store with
        user_unclaimed := some (if clear_rewards then 0 else current_rewards) }
      match status with
      | some st =>
          let aiu := st.asset_incentive_updated
          let store2 := { store1 with asset_incentive := some aiu }
          let store3 :=
            if aiu.index ≠ st.user_index_current then
              { store2 with user_asset_index := some aiu.index }
            else store2
          .ok (store3, previous_rewards, current_rewards, aiu)
      | none => .ok (store1, previous_rewards, current_rewards, asset_incentive)

/-! ### Position aggregation (contracts/red-bank/src/health.rs)

The red-bank storage is modelled per fixed user as association lists keyed
by denom.  The external collaborators that health.rs calls but that live
outside this crate slice — the cw20 balance query, the oracle price query,
and the interest-rate conversions `get_underlying_liquidity_amount` /
`get_underlying_debt_amount` (spec §6: `to_underlying(scaled, denom, time)`
is a collaborator contract) — are universally quantified functions bundled
in `RBEnv`.  `HashMap` iteration order is unspecified in Rust; the model
fixes one order, which no claim depends on. -/

/-- A user's `COLLATERALS` entry for one denom. -/
structure Collateral where
  amount_scaled : Nat
  enabled : Bool
  deriving Repr, DecidableEq

/-- The fields of `Market` that health.rs reads (`max_loan_to_value` and
`liquidation_threshold` are `Decimal` atomics). -/
structure Market where
  ma_token_address : String
  max_loan_to_value : Nat
  liquidation_threshold : Nat
  deriving Repr, DecidableEq

/-- `mars_outpost::red_bank::Position` as constructed by health.rs
(amounts are `Uint128`; `asset_price`, `max_ltv`, `liquidation_threshold`
are `Decimal` atomics). -/
structure Position where
  denom : String
  collateral_amount : Nat
  debt_amount : Nat
  max_ltv : Nat
  liquidation_threshold : Nat
  asset_price : Nat
  deriving Repr, DecidableEq

/-- Red-bank storage for one fixed user: `COLLATERALS` and `DEBTS` entries
(`DEBTS` stores the scaled amount), `MARKETS`, and the uncollateralized
loan limits (absent = zero, per `uncollateral_loan_limit` in state.rs). -/
structure RBStore where
  collaterals : List (String × Collateral)
  debts : List (String × Nat)
  markets : List (String × Market)
  uncollateralized_limits : List (String × Nat)

/-- External collaborators of health.rs: block time, cw20 balance query
(keyed by ma-token address), oracle price (`Decimal` atomics), and the
underlying-amount conversions of interest_rates.rs
(`(amount_scaled, market, block_time) ↦ amount`). -/
structure RBEnv where
  block_time : Nat
  cw20_balance : String → Nat
  price : String → Nat
  underlying_liquidity : Nat → Market → Nat → Nat
  underlying_debt : Nat → Market → Nat → Nat

/-- The candidate denoms of `get_user_positions_map`: the user's collateral
denoms and debt denoms, deduplicated (the Rust code collects both key
ranges into a `HashSet`). -/
def user_denoms (store : RBStore) : List String :=
  (store.collaterals.map Prod.fst ++ store.debts.map Prod.fst).dedup

/-- The body of `get_user_positions_map`'s per-denom closure: load the
market (storage error when absent), compute the collateral amount (zero
unless an enabled collateral entry exists, else the underlying conversion
of the user's ma-token balance at the current block time), the debt amount
(zero unless a debt entry exists, else underlying debt saturating-minus the
uncollateralized loan limit), and attach the oracle price and the market's
risk parameters. -/
def position_for (store : RBStore) (env : RBEnv) (denom : String) :
    Except StdErr Position :=
  match store.markets.lookup denom with
  | none => .error (.notFound denom)
  | some market =>
      let collateral_amount :=
        match store.collaterals.lookup denom with
        | some collateral =>
            if collateral.enabled then
              env.underlying_liquidity (env.cw20_balance market.ma_token_address)
                market env.block_time
            else 0
        | none => 0
      let debt_amount :=
        match store.debts.lookup denom with
        | some amount_scaled =>
            let amount := env.underlying_debt amount_scaled market env.block_time
            let limit := (store.uncollateralized_limits.lookup denom).getD 0
            amount - limit
        | none => 0
      .ok { denom := denom
            collateral_amount := collateral_amount
            debt_amount := debt_amount
            max_ltv := market.max_loan_to_value
            liquidation_threshold := market.liquidation_threshold
            asset_price := env.price denom }

/-- The `collect::<StdResult<HashMap<_, _>>>` of `get_user_positions_map`
over a denom list: first error wins, otherwise the association list of
positions. -/
def build_positions (store : RBStore) (env : RBEnv) :
    List String → Except StdErr (List (String × Position))
  | [] => .ok []
  | denom :: rest =>
      match position_for store env denom with
      | .error e => .error e
      | .ok p =>
          match build_positions store env rest with
          | .error e => .error e
          | .ok ps => .ok ((denom, p) :: ps)

/-- `get_user_positions_map` (health.rs). -/
def get_user_positions_map (store : RBStore) (env : RBEnv) :
    Except StdErr (List (String × Position)) :=
  build_positions store env (user_denoms store)

/-- `mars_health::health::Position` as built by `compute_position_health`
(all fields `Decimal` atomics; the amounts are `from_ratio(amount, 1)`). -/
structure HealthPosition where
  denom : String
  collateral_amount : Nat
  debt_amount : Nat
  price : Nat
  max_ltv : Nat
  liquidation_threshold : Nat
  deriving Repr, DecidableEq

/-- The outcome of `mars_health`'s `Health` that health.rs consumes: the
values of `is_liquidatable()` and `is_above_max_ltv()`.  The mars_health
crate is outside this repository slice, so the reduction
`Vec<HealthPosition> → Health` is an abstract collaborator, universally
quantified in the theorems. -/
structure Health where
  liquidatable : Bool
  above_max_ltv : Bool
  deriving Repr, DecidableEq

/-- The `Vec<HealthPosition> → StdResult<Health>` collaborator
(`Health::compute_health` of the external mars_health crate). -/
def HealthFn : Type := List HealthPosition → Except StdErr Health

/-- `compute_position_health` (health.rs): converts each `Position` to a
`HealthPosition` (`Decimal::from_ratio(amount, 1u128)` scales by `10^18`)
and hands the list to the external health reduction. -/
def compute_position_health (health_of : HealthFn)
    (positions : List (String × Position)) : Except StdErr Health :=
  health_of (positions.map (fun dp =>
    { denom := dp.2.denom
      collateral_amount := dp.2.collateral_amount * DEC18
      debt_amount := dp.2.debt_amount * DEC18
      price := dp.2.asset_price
      max_ltv := dp.2.max_ltv
      liquidation_threshold := dp.2.liquidation_threshold }))

/-- `assert_below_liq_threshold_after_withdraw` (health.rs): aggregates
positions, checked-subtracts the hypothetical withdrawal from the named
denom's collateral (error `No User Balance` when the user has no position
in that denom), and evaluates liquidatability. -/
def assert_below_liq_threshold_after_withdraw (store : RBStore) (env : RBEnv)
    (health_of : HealthFn) (denom : String) (withdraw_amount : Nat) :
    Except StdErr Bool :=
  match get_user_positions_map store env with
  | .error e => .error e
  | .ok positions =>
      match positions.lookup denom with
      | some p =>
          match checkedSub p.collateral_amount withdraw_amount with
          | .error e => .error e
          | .ok c =>
              let positions2 := positions.map (fun dp =>
                if dp.1 = denom then (dp.1, { dp.2 with collateral_amount := c }) else dp)
              match compute_position_health health_of positions2 with
              | .error e => .error e
              | .ok health => .ok (!health.liquidatable)
      | none => .error (.generic "No User Balance")

/-- The position-map mutation of `assert_below_max_ltv_after_borrow`:
`positions.entry(denom).or_insert(Position { denom, debt_amount: 0,
asset_price: query_price(denom)?, ..Default::default() }).debt_amount +=
borrow_amount` — when the user already has a position in the denom its debt
grows by the borrow amount, otherwise a fresh entry is inserted whose
collateral and risk parameters are the `Default` zeros and whose price is
freshly queried from the oracle. -/
def positions_after_borrow (env : RBEnv) (positions : List (String × Position))
    (denom : String) (borrow_amount : Nat) : List (String × Position) :=
  match positions.lookup denom with
  | some _ => positions.map (fun dp =>
      if dp.1 = denom then (dp.1, { dp.2 with debt_amount := dp.2.debt_amount + borrow_amount })
      else dp)
  | none => positions ++
      [(denom, { denom := denom
                 collateral_amount := 0
                 debt_amount := borrow_amount
                 max_ltv := 0
                 liquidation_threshold := 0
                 asset_price := env.price denom })]

/-- `assert_below_max_ltv_after_borrow` (health.rs). -/
def assert_below_max_ltv_after_borrow (store : RBStore) (env : RBEnv)
    (health_of : HealthFn) (denom : String) (borrow_amount : Nat) :
    Except StdErr Bool :=
  match get_user_positions_map store env with
  | .error e => .error e
  | .ok positions =>
      match compute_position_health health_of
          (positions_after_borrow env positions denom borrow_amount) with
      | .error e => .error e
      | .ok health => .ok (!health.above_max_ltv)

/-! ### Concrete fixtures used by witnesses and counterexamples -/

/-- Fixture: a user with enabled collateral in denom `a` and debt in denom
`b`; both denoms have markets. -/
def sampleStore : RBStore :=
  ⟨[("a", ⟨5, true⟩)], [("b", 7)], [("a", ⟨"ma", 1, 2⟩), ("b", ⟨"mb", 3, 4⟩)], []⟩

/-- Fixture environment: block time 11, every cw20 balance 100, every
price `1.0`, liquidity conversion doubles, debt conversion triples. -/
def sampleEnv : RBEnv :=
  ⟨11, fun _ => 100, fun _ => DEC18, fun s _ _ => 2 * s, fun s _ _ => 3 * s⟩

/-- The positions `get_user_positions_map` produces on the fixture. -/
def samplePositions : List (String × Position) :=
  [("a", ⟨"a", 200, 0, 1, 2, DEC18⟩), ("b", ⟨"b", 0, 21, 3, 4, DEC18⟩)]

/-- A trivial stand-in for the external health reduction. -/
def sampleHealthFn : HealthFn := fun _ => .ok ⟨false, false⟩

/-- Fixture: the user has no position in denom `c`, but `c` has a market
with nonzero risk parameters (`max_ltv = 0.8`, threshold `0.9`). -/
def borrowStore : RBStore :=
  ⟨[("a", ⟨5, true⟩)], [], [("a", ⟨"ma", 1, 2⟩), ("c", ⟨"mc", 8 * 10 ^ 17, 9 * 10 ^ 17⟩)], []⟩

/-! ## Theorems -/

lemma mulUintDec_mono (u : Nat) {a b : Nat} (h : a ≤ b) :
    mulUintDec u a ≤ mulUintDec u b :=
  Nat.div_le_div_right (Nat.mul_le_mul_left u h)

/-- A failing `checked_mul` always reports a multiplication overflow. -/
lemma checkedMul_error {a b : Nat} {e : StdErr} (h : checkedMul a b = .error e) :
    e = .overflow .mul a b := by
  unfold checkedMul at h
  split at h
  · exact absurd h (by simp)
  · cases h
    rfl

/-- Success of `compute_asset_incentive_index` characterised: the window is
well ordered, the elapsed emission fits `Uint128`, and the value is the
previous index plus the exact floored ratio. -/
lemma compute_asset_incentive_index_ok {p em tot ts te v : Nat}
    (h : compute_asset_incentive_index p em tot ts te = .ok v) :
    ts ≤ te ∧ em * (te - ts) < uint128Bound ∧
      v = p + decimalFromRatio (em * (te - ts)) tot := by
  unfold compute_asset_incentive_index at h
  split at h
  · exact absurd h (by simp)
  · next hle =>
    unfold checkedMul at h
    split at h
    · exact absurd h (by simp)
    · next efes heq =>
      split at heq
      · next hfit =>
        cases heq
        cases h
        exact ⟨Nat.le_of_not_lt hle, hfit, rfl⟩
      · exact absurd heq (by simp)

/-- C1 (amended).  `update_asset_incentive_index`:
(1) when any of the five guard conditions fails, the index is untouched and
only `last_updated` is set to `now`;
(2) when the guard holds, every successful result carries
`index = previous + (emission_per_second * (time_end - time_start)) / total`
in exact-ratio fixed point, with
`time_start = max(start_time, last_updated)` and
`time_end = min(now, start_time + duration)` — a sum that can leave the
index unchanged when the ratio floors to zero;
(3) every successful result has `last_updated = now`, and the index changed
only if all five guard conditions hold. -/
theorem update_index_guard_and_formula (ai : AssetIncentive) (total now : Nat) :
    (¬ advance_guard ai total now →
      update_asset_incentive_index ai total now = .ok { ai with last_updated := now }) ∧
    (advance_guard ai total now →
      ∀ ai2, update_asset_incentive_index ai total now = .ok ai2 →
        ai2 = { ai with
                index := ai.index + decimalFromRatio
                  (ai.emission_per_second *
                    (min now (ai.start_time + ai.duration) - max ai.start_time ai.last_updated))
                  total
                last_updated := now }) ∧
    (∀ ai2, update_asset_incentive_index ai total now = .ok ai2 →
      ai2.last_updated = now ∧ (ai2.index ≠ ai.index → advance_guard ai total now)) := by
  by_cases hg : advance_guard ai total now
  · refine ⟨fun h => absurd hg h, fun _ ai2 h2 => ?_, fun ai2 h2 => ?_⟩
    · unfold update_asset_incentive_index at h2
      rw [if_pos hg] at h2
      rcases hc : compute_asset_incentive_index ai.index ai.emission_per_second total
          (max ai.start_time ai.last_updated)
          (min now (ai.start_time + ai.duration)) with e | idx
      · rw [hc] at h2; exact absurd h2 (by simp)
      · rw [hc] at h2
        obtain ⟨-, -, hv⟩ := compute_asset_incentive_index_ok hc
        cases h2
        rw [hv]
    · unfold update_asset_incentive_index at h2
      rw [if_pos hg] at h2
      rcases hc : compute_asset_incentive_index ai.index ai.emission_per_second total
          (max ai.start_time ai.last_updated)
          (min now (ai.start_time + ai.duration)) with e | idx
      · rw [hc] at h2; exact absurd h2 (by simp)
      · rw [hc] at h2
        cases h2
        exact ⟨rfl, fun _ => hg⟩
  · have hok : update_asset_incentive_index ai total now = .ok { ai with last_updated := now } := by
      unfold update_asset_incentive_index
      rw [if_neg hg]
    refine ⟨fun _ => hok, fun h => absurd h hg, fun ai2 h2 => ?_⟩
    rw [hok] at h2
    cases h2
    exact ⟨rfl, fun hne => absurd rfl hne⟩

/-- C1 witness: a guard-false call (`now = last_updated`) leaves the index
at `1.0` and stamps `last_updated`. -/
theorem update_index_guard_and_formula_witness :
    update_asset_incentive_index ⟨100, 0, 10 ^ 9, DEC18, 500000⟩ 100000 500000 =
      .ok ⟨100, 0, 10 ^ 9, DEC18, 500000⟩ :=
  (update_index_guard_and_formula ⟨100, 0, 10 ^ 9, DEC18, 500000⟩ 100000 500000).1 (by decide)

/-- C1 counterexample: all five guard conditions hold (`now = 1 ≠ 0 =
last_updated`, `now > start_time = 0`, `last_updated = 0 < 10 =
start_time + duration`, `total = 2·10^18 ≠ 0`, `emission = 1 ≠ 0`) yet the
index does not change: one second of emission `1` over total supply
`2·10^18` floors to zero atomics. -/
theorem update_index_advances_despite_guard_refuted :
    advance_guard ⟨1, 0, 10, 0, 0⟩ (2 * DEC18) 1 ∧
    update_asset_incentive_index ⟨1, 0, 10, 0, 0⟩ (2 * DEC18) 1 =
      .ok ⟨1, 0, 10, 0, 1⟩ := by
  decide

/-- C5 (amended).  Every successful `update_asset_incentive_index` yields an
index `≥` the previous one, and `emission_per_second = 0` or `total = 0`
forces equality; the converse (equality only under a zero rate or supply)
fails — see the counterexample. -/
theorem update_index_monotone (ai : AssetIncentive) (total now : Nat)
    (ai2 : AssetIncentive)
    (h : update_asset_incentive_index ai total now = .ok ai2) :
    ai.index ≤ ai2.index ∧
    ((ai.emission_per_second = 0 ∨ total = 0) → ai2.index = ai.index) := by
  unfold update_asset_incentive_index at h
  by_cases hg : advance_guard ai total now
  · rw [if_pos hg] at h
    rcases hc : compute_asset_incentive_index ai.index ai.emission_per_second total
        (max ai.start_time ai.last_updated)
        (min now (ai.start_time + ai.duration)) with e | idx
    · rw [hc] at h; exact absurd h (by simp)
    · rw [hc] at h
      obtain ⟨-, -, hv⟩ := compute_asset_incentive_index_ok hc
      cases h
      refine ⟨by rw [hv]; exact Nat.le_add_right _ _, fun hz => ?_⟩
      obtain ⟨-, -, -, htot, hem⟩ := hg
      rcases hz with hz | hz
      · exact absurd hz hem
      · exact absurd hz htot
  · rw [if_neg hg] at h
    cases h
    exact ⟨Nat.le_refl _, fun _ => rfl⟩

/-- C5 witness: advancing the spec's concrete scenario (emission 100 over
supply 100000 for 100000 s on top of index `1.0`) yields index `101.0 ≥ 1.0`. -/
theorem update_index_monotone_witness :
    (⟨100, 0, 10 ^ 9, DEC18, 500000⟩ : AssetIncentive).index ≤
      (⟨100, 0, 10 ^ 9, 101 * DEC18, 600000⟩ : AssetIncentive).index :=
  (update_index_monotone ⟨100, 0, 10 ^ 9, DEC18, 500000⟩ 100000 600000
    ⟨100, 0, 10 ^ 9, 101 * DEC18, 600000⟩ (by decide)).1

/-- C5 counterexample: with nonzero emission (`1`) and nonzero supply
(`2·10^18`) the index can still stay put — one second of emission floors to
zero atomics — refuting "equality iff `emission = 0 ∨ total = 0`". -/
theorem update_index_equality_with_nonzero_rate :
    update_asset_incentive_index ⟨1, 0, 10, 42, 0⟩ (2 * DEC18) 1 =
      .ok ⟨1, 0, 10, 42, 1⟩ ∧
    (1 : Nat) ≠ 0 ∧ (2 * DEC18 : Nat) ≠ 0 := by
  decide

/-- C9 (confirmed).  Under the data-model invariant `last_updated ≤
current block time`, `update_asset_incentive_index` never returns the
`time_start > time_end` subtraction-overflow error: the clamped window
always satisfies `time_start ≤ time_end` under the guard, so that branch of
`compute_asset_incentive_index` is unreachable. -/
theorem update_index_no_window_error (ai : AssetIncentive) (total now : Nat)
    (h : ai.last_updated ≤ now) (a b : Nat) :
    update_asset_incentive_index ai total now ≠ .error (.overflow .sub a b) := by
  unfold update_asset_incentive_index
  by_cases hg : advance_guard ai total now
  · rw [if_pos hg]
    obtain ⟨-, h2, h3, -, -⟩ := hg
    have hts : max ai.start_time ai.last_updated ≤ min now (ai.start_time + ai.duration) :=
      max_le (le_min (Nat.le_of_lt h2) (Nat.le_add_right _ _)) (le_min h (Nat.le_of_lt h3))
    unfold compute_asset_incentive_index
    rw [if_neg (Nat.not_lt.mpr hts)]
    rcases hm : checkedMul ai.emission_per_second
        (min now (ai.start_time + ai.duration) - max ai.start_time ai.last_updated) with e | v
    · obtain rfl := checkedMul_error hm
      simp
    · simp
  · rw [if_neg hg]
    simp

/-- C9 witness: a concrete in-invariant call is not the window error. -/
theorem update_index_no_window_error_witness :
    update_asset_incentive_index ⟨1, 0, 10, 0, 2⟩ 5 3 ≠ .error (.overflow .sub 0 0) :=
  update_index_no_window_error ⟨1, 0, 10, 0, 2⟩ 5 3 (by decide) 0 0

/-- C10 (confirmed).  `update_asset_incentive_index` is frame-preserving:
every successful result keeps `emission_per_second`, `start_time` and
`duration` exactly as they were, whichever guard conditions held. -/
theorem update_index_frame (ai : AssetIncentive) (total now : Nat)
    (ai2 : AssetIncentive)
    (h : update_asset_incentive_index ai total now = .ok ai2) :
    ai2.emission_per_second = ai.emission_per_second ∧
    ai2.start_time = ai.start_time ∧ ai2.duration = ai.duration := by
  unfold update_asset_incentive_index at h
  by_cases hg : advance_guard ai total now
  · rw [if_pos hg] at h
    rcases hc : compute_asset_incentive_index ai.index ai.emission_per_second total
        (max ai.start_time ai.last_updated)
        (min now (ai.start_time + ai.duration)) with e | idx
    · rw [hc] at h; exact absurd h (by simp)
    · rw [hc] at h
      cases h
      exact ⟨rfl, rfl, rfl⟩
  · rw [if_neg hg] at h
    cases h
    exact ⟨rfl, rfl, rfl⟩

/-- C10 witness: a concrete successful update keeps the schedule fields. -/
theorem update_index_frame_witness :
    (⟨9, 1, 2, 0, 5⟩ : AssetIncentive).emission_per_second =
      (⟨9, 1, 2, 0, 1⟩ : AssetIncentive).emission_per_second ∧
    (⟨9, 1, 2, 0, 5⟩ : AssetIncentive).start_time =
      (⟨9, 1, 2, 0, 1⟩ : AssetIncentive).start_time ∧
    (⟨9, 1, 2, 0, 5⟩ : AssetIncentive).duration =
      (⟨9, 1, 2, 0, 1⟩ : AssetIncentive).duration :=
  update_index_frame ⟨9, 1, 2, 0, 1⟩ 0 5 ⟨9, 1, 2, 0, 5⟩ (by decide)

/-- C2 (amended).  For `idx_old ≤ idx_new`, `compute_user_accrued_rewards`
succeeds and returns `⌊balance·idx_new⌋ − ⌊balance·idx_old⌋`, each
fixed-point product floored to an integer separately (which can differ from
the fixed-point product `balance × (idx_new − idx_old)` — see the
counterexample); `accrued(balance, idx, idx) = 0` and
`accrued(0, idx_old, idx_new) = 0` hold for all indices. -/
theorem accrued_rewards_floor_formula (u a b : Nat) :
    (a ≤ b → compute_user_accrued_rewards u a b =
      .ok (mulUintDec u b - mulUintDec u a)) ∧
    compute_user_accrued_rewards u a a = .ok 0 ∧
    compute_user_accrued_rewards 0 a b = .ok 0 := by
  refine ⟨fun h => ?_, ?_, ?_⟩
  · unfold compute_user_accrued_rewards checkedSub
    rw [if_neg (Nat.not_lt.mpr (mulUintDec_mono u h))]
  · unfold compute_user_accrued_rewards checkedSub
    simp
  · unfold compute_user_accrued_rewards checkedSub mulUintDec
    simp

/-- C2 witness: balance `5`, indices `1.0 ≤ 3.0`, reward `15 − 5 = 10`. -/
theorem accrued_rewards_floor_formula_witness :
    compute_user_accrued_rewards 5 DEC18 (3 * DEC18) = .ok 10 := by
  rw [(accrued_rewards_floor_formula 5 DEC18 (3 * DEC18)).1 (by decide)]
  decide

/-- C2 counterexample: balance `1`, `idx_old = 0.6`, `idx_new = 1.0`: the
function returns `⌊1.0⌋ − ⌊0.6⌋ = 1`, while the fixed-point product
`balance × (idx_new − idx_old) = ⌊1 · 0.4⌋ = 0`; floors do not distribute
over the index difference. -/
theorem accrued_rewards_exact_product_refuted :
    compute_user_accrued_rewards 1 (6 * 10 ^ 17) DEC18 = .ok 1 ∧
    mulUintDec 1 (DEC18 - 6 * 10 ^ 17) = 0 ∧ (1 : Nat) ≠ 0 := by
  decide

/-- C6 (amended).  `compute_user_accrued_rewards` fails exactly when the
floored product `⌊balance·current_index⌋` is strictly below
`⌊balance·user_index⌋` (an underflow of the checked subtraction); it never
fails when `current_index ≥ user_index`, but it can also succeed with
`current_index < user_index` when the two floored products coincide — see
the counterexample. -/
theorem accrued_rewards_error_condition (u a b : Nat) :
    (compute_user_accrued_rewards u a b =
        .error (.overflow .sub (mulUintDec u b) (mulUintDec u a)) ↔
      mulUintDec u b < mulUintDec u a) ∧
    (a ≤ b → ∀ e, compute_user_accrued_rewards u a b ≠ .error e) := by
  constructor
  · constructor
    · intro h
      by_contra hlt
      unfold compute_user_accrued_rewards checkedSub at h
      rw [if_neg hlt] at h
      exact absurd h (by simp)
    · intro hlt
      unfold compute_user_accrued_rewards checkedSub
      rw [if_pos hlt]
  · intro hab e
    unfold compute_user_accrued_rewards checkedSub
    rw [if_neg (Nat.not_lt.mpr (mulUintDec_mono u hab))]
    simp

/-- C6 witness: balance `2`, `user_index = 2.0 > current_index = 1.0` makes
the checked subtraction `2 − 4` underflow. -/
theorem accrued_rewards_error_condition_witness :
    compute_user_accrued_rewards 2 (2 * DEC18) DEC18 =
      .error (.overflow .sub (mulUintDec 2 DEC18) (mulUintDec 2 (2 * DEC18))) :=
  (accrued_rewards_error_condition 2 (2 * DEC18) DEC18).1.mpr (by decide)

/-- C6 counterexample: balance `1`, `current_index = 0 < 0.5 = user_index`,
yet both products floor to `0` and the call succeeds with reward `0` —
refuting "fails whenever `current_index < user_index`". -/
theorem accrued_rewards_failure_despite_lt_refuted :
    (0 : Nat) < 5 * 10 ^ 17 ∧
    compute_user_accrued_rewards 1 (5 * 10 ^ 17) 0 = .ok 0 := by
  decide

/-- C4 (amended).  For a user whose collateral scaled balance in the denom
is zero (whether passed in or queried), settlement short-circuits:
`compute_new_user_unclaimed_rewards` returns `(0, none)` without advancing
any index, and `update_user_rewards` leaves the stored `AssetIncentive` and
the user's per-denom index untouched and accrues zero — but it still
rewrites the unclaimed-rewards entry: to zero when the settlement is part
of a claim (`clear_rewards`), otherwise to its previous value (creating an
explicit zero entry when it was absent). -/
theorem settlement_zero_balance_frame (store : IncStore) (block_time : Nat)
    (queried : Collaterals) (ai : AssetIncentive) (collaterals : Option Collaterals)
    (clear_rewards : Bool)
    (h : (collaterals.getD queried).user_collateral = 0) :
    compute_new_user_unclaimed_rewards store block_time queried ai collaterals = .ok (0, none) ∧
    update_user_rewards store block_time queried ai collaterals clear_rewards =
      .ok ({ store with
             user_unclaimed := some (if clear_rewards then 0 else store.user_unclaimed.getD 0) },
           store.user_unclaimed.getD 0, store.user_unclaimed.getD 0, ai) := by
  have hc : compute_new_user_unclaimed_rewards store block_time queried ai collaterals =
      .ok (0, none) := by
    unfold compute_new_user_unclaimed_rewards
    rw [if_pos h]
  refine ⟨hc, ?_⟩
  unfold update_user_rewards
  rw [hc]
  simp

/-- C4 witness: zero balance with `clear_rewards = false` and an existing
unclaimed entry `7`: everything is returned as it was. -/
theorem settlement_zero_balance_frame_witness :
    update_user_rewards ⟨some 3, some 7, none⟩ 5 ⟨0, 10⟩ ⟨1, 0, 10, 0, 0⟩ none false =
      .ok (⟨some 3, some 7, none⟩, 7, 7, ⟨1, 0, 10, 0, 0⟩) := by
  have h := (settlement_zero_balance_frame ⟨some 3, some 7, none⟩ 5 ⟨0, 10⟩
    ⟨1, 0, 10, 0, 0⟩ none false (by decide)).2
  simpa using h

/-- C4 counterexample: zero collateral balance but `clear_rewards = true`
(the settlement is part of a claim) with previous unclaimed rewards `5`:
the unclaimed-rewards balance is zeroed, refuting "no state write — the
unclaimed-rewards balance remains exactly as it was". -/
theorem settlement_zero_balance_no_write_refuted :
    update_user_rewards ⟨none, some 5, none⟩ 6 ⟨0, 9⟩ ⟨2, 0, 10, 3, 0⟩ none true =
      .ok (⟨none, some 0, none⟩, 5, 5, ⟨2, 0, 10, 3, 0⟩) ∧
    (some 5 : Option Nat) ≠ some 0 := by
  decide

/-- A successful `position_for` call pins down the whole position record. -/
lemma position_for_ok {store : RBStore} {env : RBEnv} {denom : String} {p : Position}
    (h : position_for store env denom = .ok p) :
    ∃ market, store.markets.lookup denom = some market ∧
      p = { denom := denom
            collateral_amount :=
              match store.collaterals.lookup denom with
              | some collateral =>
                  if collateral.enabled then
                    env.underlying_liquidity (env.cw20_balance market.ma_token_address)
                      market env.block_time
                  else 0
              | none => 0
            debt_amount :=
              match store.debts.lookup denom with
              | some amount_scaled =>
                  env.underlying_debt amount_scaled market env.block_time -
                    (store.uncollateralized_limits.lookup denom).getD 0
              | none => 0
            max_ltv := market.max_loan_to_value
            liquidation_threshold := market.liquidation_threshold
            asset_price := env.price denom } := by
  unfold position_for at h
  rcases hm : store.markets.lookup denom with - | market
  · rw [hm] at h
    exact absurd h (by simp)
  · rw [hm] at h
    cases h
    exact ⟨market, rfl, rfl⟩

/-- A successful `build_positions` run keys the output by its input list. -/
lemma build_positions_keys {store : RBStore} {env : RBEnv} :
    ∀ {l : List String} {m : List (String × Position)},
      build_positions store env l = .ok m → m.map Prod.fst = l := by
  intro l
  induction l with
  | nil =>
    intro m h
    cases h
    rfl
  | cons denom rest ih =>
    intro m h
    unfold build_positions at h
    rcases hp : position_for store env denom with e | p
    · rw [hp] at h
      exact absurd h (by simp)
    · rw [hp] at h
      rcases hr : build_positions store env rest with e | ps
      · rw [hr] at h
        exact absurd h (by simp)
      · rw [hr] at h
        cases h
        simp [ih hr]

/-- Every pair in a successful `build_positions` output comes from
`position_for` on its key. -/
lemma build_positions_mem {store : RBStore} {env : RBEnv} :
    ∀ {l : List String} {m : List (String × Position)},
      build_positions store env l = .ok m →
      ∀ d p, (d, p) ∈ m → position_for store env d = .ok p := by
  intro l
  induction l with
  | nil =>
    intro m h d p hdp
    cases h
    simp at hdp
  | cons denom rest ih =>
    intro m h d p hdp
    unfold build_positions at h
    rcases hp : position_for store env denom with e | q
    · rw [hp] at h
      exact absurd h (by simp)
    · rw [hp] at h
      rcases hr : build_positions store env rest with e | ps
      · rw [hr] at h
        exact absurd h (by simp)
      · rw [hr] at h
        cases h
        rcases List.mem_cons.mp hdp with hhead | htail
        · have h1 : d = denom := congrArg Prod.fst hhead
          have h2 : p = q := congrArg Prod.snd hhead
          subst h1
          subst h2
          exact hp
        · exact ih hr d p htail

/-- C3 (confirmed).  A successful `get_user_positions_map` returns exactly
one position per denom of the deduplicated union of the user's stored
collateral denoms and stored debt denoms; each position's collateral amount
is zero unless an enabled collateral entry exists, in which case it is the
underlying conversion (at the current block time) of the user's ma-token
balance; and its debt amount is zero when no debt entry exists, otherwise
the underlying debt amount minus the user's uncollateralized loan limit,
floored at zero by the saturating `Nat` subtraction (never negative). -/
theorem positions_map_contents (store : RBStore) (env : RBEnv)
    (m : List (String × Position))
    (h : get_user_positions_map store env = .ok m) :
    (m.map Prod.fst).Nodup ∧
    (∀ d, d ∈ m.map Prod.fst ↔
      (d ∈ store.collaterals.map Prod.fst ∨ d ∈ store.debts.map Prod.fst)) ∧
    (∀ d p, (d, p) ∈ m → ∃ market, store.markets.lookup d = some market ∧
      ((∀ collateral, store.collaterals.lookup d = some collateral →
          p.collateral_amount =
            if collateral.enabled then
              env.underlying_liquidity (env.cw20_balance market.ma_token_address)
                market env.block_time
            else 0) ∧
       (store.collaterals.lookup d = none → p.collateral_amount = 0) ∧
       (∀ amount_scaled, store.debts.lookup d = some amount_scaled →
          p.debt_amount =
            env.underlying_debt amount_scaled market env.block_time -
              (store.uncollateralized_limits.lookup d).getD 0) ∧
       (store.debts.lookup d = none → p.debt_amount = 0) ∧
       p.max_ltv = market.max_loan_to_value ∧
       p.liquidation_threshold = market.liquidation_threshold ∧
       p.asset_price = env.price d)) := by
  unfold get_user_positions_map at h
  have hkeys := build_positions_keys h
  refine ⟨?_, ?_, ?_⟩
  · rw [hkeys]
    exact List.nodup_dedup _
  · intro d
    rw [hkeys]
    unfold user_denoms
    rw [List.mem_dedup, List.mem_append]
  · intro d p hdp
    obtain ⟨market, hm, hp⟩ := position_for_ok (build_positions_mem h d p hdp)
    refine ⟨market, hm, ?_, ?_, ?_, ?_, ?_, ?_, ?_⟩ <;> subst hp
    · intro collateral hcoll
      simp [hcoll]
    · intro hcoll
      simp [hcoll]
    · intro amount_scaled hdebt
      simp [hdebt]
    · intro hdebt
      simp [hdebt]
    · rfl
    · rfl
    · rfl

/-- C3 witness: on the fixture store the map has exactly the denoms `a`
(enabled collateral `2 × 100`) and `b` (debt `3 × 7 − 0`). -/
theorem positions_map_contents_witness :
    samplePositions.map Prod.fst = ["a", "b"] ∧
    ("b" ∈ samplePositions.map Prod.fst ↔
      ("b" ∈ sampleStore.collaterals.map Prod.fst ∨
        "b" ∈ sampleStore.debts.map Prod.fst)) := by
  constructor
  · decide
  · exact (positions_map_contents sampleStore sampleEnv samplePositions (by decide)).2.1 "b"

/-- C7 (confirmed).  The withdrawal pre-check fails with the checked-sub
underflow error whenever the hypothetical withdrawal exceeds the user's
aggregated collateral amount in the denom — it never floors the balance to
zero — and fails with the distinct `No User Balance` error whenever the
user has no position at all in that denom. -/
theorem withdraw_check_errors (store : RBStore) (env : RBEnv)
    (health_of : HealthFn) (denom : String) (withdraw_amount : Nat)
    (m : List (String × Position))
    (h : get_user_positions_map store env = .ok m) :
    (∀ p, m.lookup denom = some p → p.collateral_amount < withdraw_amount →
      assert_below_liq_threshold_after_withdraw store env health_of denom withdraw_amount =
        .error (.overflow .sub p.collateral_amount withdraw_amount)) ∧
    (m.lookup denom = none →
      assert_below_liq_threshold_after_withdraw store env health_of denom withdraw_amount =
        .error (.generic "No User Balance")) := by
  constructor
  · intro p hp hlt
    unfold assert_below_liq_threshold_after_withdraw
    simp only [h, hp]
    unfold checkedSub
    rw [if_pos hlt]
  · intro hn
    unfold assert_below_liq_threshold_after_withdraw
    simp only [h, hn]

/-- C7 witness: on the fixture, withdrawing 300 from collateral 200 in
denom `a` underflows, and denom `z` (no position) reports `No User
Balance`. -/
theorem withdraw_check_errors_witness :
    assert_below_liq_threshold_after_withdraw sampleStore sampleEnv sampleHealthFn "a" 300 =
      .error (.overflow .sub 200 300) ∧
    assert_below_liq_threshold_after_withdraw sampleStore sampleEnv sampleHealthFn "z" 1 =
      .error (.generic "No User Balance") :=
  ⟨(withdraw_check_errors sampleStore sampleEnv sampleHealthFn "a" 300 samplePositions
      (by decide)).1 ⟨"a", 200, 0, 1, 2, DEC18⟩ (by decide) (by decide),
   (withdraw_check_errors sampleStore sampleEnv sampleHealthFn "z" 1 samplePositions
      (by decide)).2 (by decide)⟩

/-- `List.lookup` distributes over append through the first hit. -/
lemma lookup_append {β : Type} (l1 l2 : List (String × β)) (a : String) :
    (l1 ++ l2).lookup a =
      match l1.lookup a with
      | some v => some v
      | none => l2.lookup a := by
  induction l1 with
  | nil => rfl
  | cons kv t ih =>
    rcases kv with ⟨k, v⟩
    by_cases hk : (a == k) = true
    · simp [List.lookup, hk]
    · rw [Bool.not_eq_true] at hk
      simp [List.lookup, hk, ih]

/-- C8 (amended).  When the user has no position in the named denom, the
borrow pre-check inserts a fresh entry whose price is freshly queried from
the oracle for that denom but whose collateral and risk parameters
(`max_ltv`, `liquidation_threshold`) are the `Default` zeros (not fetched
from the denom's market), adds the borrow amount to its debt, leaves every
other denom's position untouched (no other denom's parameters are reused),
and evaluates health on the resulting map. -/
theorem borrow_check_fresh_position (store : RBStore) (env : RBEnv)
    (health_of : HealthFn) (denom : String) (borrow_amount : Nat)
    (m : List (String × Position))
    (h : get_user_positions_map store env = .ok m)
    (hnone : m.lookup denom = none) :
    (positions_after_borrow env m denom borrow_amount).lookup denom =
      some { denom := denom
             collateral_amount := 0
             debt_amount := borrow_amount
             max_ltv := 0
             liquidation_threshold := 0
             asset_price := env.price denom } ∧
    (∀ d, d ≠ denom →
      (positions_after_borrow env m denom borrow_amount).lookup d = m.lookup d) ∧
    assert_below_max_ltv_after_borrow store env health_of denom borrow_amount =
      (match compute_position_health health_of
          (positions_after_borrow env m denom borrow_amount) with
       | .error e => .error e
       | .ok health => .ok (!health.above_max_ltv)) := by
  have hpos : positions_after_borrow env m denom borrow_amount =
      m ++ [(denom, { denom := denom
                      collateral_amount := 0
                      debt_amount := borrow_amount
                      max_ltv := 0
                      liquidation_threshold := 0
                      asset_price := env.price denom })] := by
    unfold positions_after_borrow
    rw [hnone]
  refine ⟨?_, ?_, ?_⟩
  · rw [hpos, lookup_append, hnone]
    simp [List.lookup]
  · intro d hd
    rw [hpos, lookup_append]
    rcases hm : m.lookup d with - | v
    · have hne : (d == denom) = false := beq_eq_false_iff_ne.mpr hd
      simp [List.lookup, hne]
    · rfl
  · unfold assert_below_max_ltv_after_borrow
    rw [h]

/-- C8 witness: borrowing 10 in denom `c` (no existing position) on the
fixture inserts the zero-parameter entry at price `1.0` and keeps denom `a`
unchanged. -/
theorem borrow_check_fresh_position_witness :
    (positions_after_borrow sampleEnv
        [("a", ⟨"a", 200, 0, 1, 2, DEC18⟩)] "c" 10).lookup "c" =
      some ⟨"c", 0, 10, 0, 0, DEC18⟩ ∧
    (positions_after_borrow sampleEnv
        [("a", ⟨"a", 200, 0, 1, 2, DEC18⟩)] "c" 10).lookup "a" =
      some ⟨"a", 200, 0, 1, 2, DEC18⟩ := by
  have h := borrow_check_fresh_position borrowStore sampleEnv sampleHealthFn "c" 10
    [("a", ⟨"a", 200, 0, 1, 2, DEC18⟩)] (by decide) (by decide)
  exact ⟨h.1, by rw [h.2.1 "a" (by decide)]; decide⟩

/-- C8 counterexample: the market for denom `c` carries fresh risk
parameters `max_ltv = 0.8`, `liquidation_threshold = 0.9`, yet the
zero-valued position the borrow pre-check creates for `c` has
`max_ltv = 0` and `liquidation_threshold = 0` — the risk parameters are
`Default` zeros, not freshly fetched for that denom. -/
theorem borrow_check_fresh_params_refuted :
    get_user_positions_map borrowStore sampleEnv =
      .ok [("a", ⟨"a", 200, 0, 1, 2, DEC18⟩)] ∧
    (positions_after_borrow sampleEnv
        [("a", ⟨"a", 200, 0, 1, 2, DEC18⟩)] "c" 10).lookup "c" =
      some ⟨"c", 0, 10, 0, 0, DEC18⟩ ∧
    borrowStore.markets.lookup "c" = some ⟨"mc", 8 * 10 ^ 17, 9 * 10 ^ 17⟩ ∧
    (0 : Nat) ≠ 8 * 10 ^ 17 ∧ (0 : Nat) ≠ 9 * 10 ^ 17 := by
  decide
